import Mathlib

/-!
Verification of the scoring and capital-allocation engine of the
stock-portfolio-tracker repository, as a shallow embedding in Lean 4.

Python floats are modelled as rationals, Python ints as integers,
`None`-able inputs as `Option`, and dictionaries as association lists
in insertion order (with overwrite-on-repeated-key semantics where the
source relies on them).  Every definition is translated directly from
the named source function.
-/

namespace StockTracker

/-! ### Pillar scorer (src/backend/scoring_8x8.py) -/

/-- Embeds EightByEightScorer.score_fortress (scoring_8x8.py lines 34-50).
A missing or negative debt-to-EBITDA ratio scores 8 (net cash). -/
def score_fortress : Option ℚ → ℤ
  | none => 8
  | some d =>
    if d < 0 then 8
    else if 5/2 < d then 0
    else if d ≤ 1/2 then 7
    else if d ≤ 1 then 6
    else if d ≤ 3/2 then 5
    else 4

/-- Embeds EightByEightScorer.score_capital_allocation (scoring_8x8.py
lines 106-123).  The buyback-quality argument is the raw string the
source compares against. -/
def score_capital_allocation : Option ℚ → String → ℤ
  | none, _ => 0
  | some roe, buyback_quality =>
    if roe < 3/20 then 0
    else if 3/10 < roe ∧ buyback_quality = "disciplined" then 8
    else if 1/4 < roe ∧ (buyback_quality = "disciplined" ∨ buyback_quality = "moderate") then 7
    else if 1/5 < roe then 6
    else if 3/20 ≤ roe ∧ roe ≤ 1/5 then 5
    else 4

/-- Market-share trend values passed to the durability pillar. -/
inductive Trend
  | losing
  | stable
  | gaining
deriving DecidableEq, Repr

/-- Embeds EightByEightScorer.score_durability (scoring_8x8.py lines
143-169).  The source returns 4 as soon as either input is `None`. -/
def score_durability : Option Trend → Option ℚ → ℤ
  | none, _ => 4
  | _, none => 4
  | some t, some g =>
    if t = Trend.losing ∨ g < 0 then 0
    else if t = Trend.gaining then
      if 1/5 < g then 8
      else if 3/20 ≤ g then 7
      else if 1/10 ≤ g then 5
      else 4
    else
      if 1/5 < g then 6
      else if 1/10 ≤ g then 4
      else 0

/-- C2 as frozen, formalised: the fortress ladder the claim states,
read as a descending guard ladder (8 for missing or negative, 0 above
2.5, 8 at or below 0.5, 7 at or below 1.0, 5 at or below 1.5, 4 on
(1.5, 2.5]). -/
def claimC2 : Prop :=
  ∀ d : ℚ,
    score_fortress none = 8 ∧
    (d < 0 → score_fortress (some d) = 8) ∧
    (5/2 < d → score_fortress (some d) = 0) ∧
    (0 ≤ d → d ≤ 1/2 → score_fortress (some d) = 8) ∧
    (0 ≤ d → 1/2 < d → d ≤ 1 → score_fortress (some d) = 7) ∧
    (0 ≤ d → 1 < d → d ≤ 3/2 → score_fortress (some d) = 5) ∧
    (0 ≤ d → 3/2 < d → d ≤ 5/2 → score_fortress (some d) = 4)

/-- C2 counterexample: at debt-to-EBITDA 0.3 the source returns 7, not
the 8 the claim demands for ratios at or below 0.5 (and at 0.8 it
returns 6, not 7). -/
theorem score_fortress_claim_false : ¬ claimC2 := by
  intro h
  have h8 := (h (3/10)).2.2.2.1 (by norm_num) (by norm_num)
  have h7 : score_fortress (some (3/10)) = 7 := by norm_num [score_fortress]
  rw [h7] at h8
  exact absurd h8 (by decide)

/-- C2 amended: for every debt-to-EBITDA input the fortress scorer
returns 8 when the input is missing or negative, 0 when it exceeds 2.5,
7 when it is at most 0.5, 6 when it is at most 1.0, 5 when it is at
most 1.5, and 4 on the interval (1.5, 2.5]. -/
theorem score_fortress_ladder (d : ℚ) :
    score_fortress none = 8 ∧
    (d < 0 → score_fortress (some d) = 8) ∧
    (5/2 < d → score_fortress (some d) = 0) ∧
    (0 ≤ d → d ≤ 1/2 → score_fortress (some d) = 7) ∧
    (0 ≤ d → 1/2 < d → d ≤ 1 → score_fortress (some d) = 6) ∧
    (0 ≤ d → 1 < d → d ≤ 3/2 → score_fortress (some d) = 5) ∧
    (0 ≤ d → 3/2 < d → d ≤ 5/2 → score_fortress (some d) = 4) := by
  refine ⟨rfl, ?_, ?_, ?_, ?_, ?_, ?_⟩ <;>
    intros <;> simp only [score_fortress] <;> split_ifs <;>
    first | rfl | linarith

/-- C6 as frozen, formalised: the durability table the claim states,
including the clause that a losing trend (or negative TAM growth)
always scores 0, and that 4 is returned only when both inputs are
absent. -/
def claimC6 : Prop :=
  ∀ (t : Option Trend) (g : Option ℚ),
    ((t = some Trend.losing ∨ (∃ x, g = some x ∧ x < 0)) → score_durability t g = 0) ∧
    ((t = some Trend.gaining ∧ ∃ x, g = some x ∧ 1/5 < x) → score_durability t g = 8) ∧
    ((t = some Trend.gaining ∧ ∃ x, g = some x ∧ 3/20 ≤ x ∧ x ≤ 1/5) → score_durability t g = 7) ∧
    ((t = some Trend.stable ∧ ∃ x, g = some x ∧ 1/5 < x) → score_durability t g = 6) ∧
    ((t = some Trend.gaining ∧ ∃ x, g = some x ∧ 1/10 ≤ x ∧ x < 3/20) → score_durability t g = 5) ∧
    ((t = some Trend.gaining ∧ ∃ x, g = some x ∧ 0 ≤ x ∧ x < 1/10) → score_durability t g = 4) ∧
    ((t = some Trend.stable ∧ ∃ x, g = some x ∧ 1/10 ≤ x ∧ x ≤ 1/5) → score_durability t g = 4) ∧
    ((t = some Trend.stable ∧ ∃ x, g = some x ∧ 0 ≤ x ∧ x < 1/10) → score_durability t g = 0) ∧
    (t = none ∧ g = none → score_durability t g = 4)

/-- C6 counterexample: with a losing trend but an absent TAM-growth
input the source returns 4 (the either-input-absent default fires
first), while the claim demands 0 whenever the trend is losing. -/
theorem score_durability_claim_false : ¬ claimC6 := by
  intro h
  have h0 := (h (some Trend.losing) none).1 (Or.inl rfl)
  have : score_durability (some Trend.losing) none = 4 := rfl
  rw [this] at h0
  exact absurd h0 (by decide)

/-- C6 amended: the durability scorer returns 4 as soon as either input
is absent; with both present it returns 0 when the trend is losing or
TAM growth is negative, 8 when gaining with TAM above 0.20, 7 when
gaining with TAM in [0.15, 0.20], 6 when stable with TAM above 0.20, 5
when gaining with TAM in [0.10, 0.15), 4 when gaining with TAM in
[0, 0.10) or stable with TAM in [0.10, 0.20], and 0 when stable with
TAM in [0, 0.10). -/
theorem score_durability_ladder (t : Trend) (g : ℚ) :
    score_durability none none = 4 ∧
    score_durability (some t) none = 4 ∧
    score_durability none (some g) = 4 ∧
    (t = Trend.losing ∨ g < 0 → score_durability (some t) (some g) = 0) ∧
    (t = Trend.gaining → 1/5 < g → score_durability (some t) (some g) = 8) ∧
    (t = Trend.gaining → 3/20 ≤ g → g ≤ 1/5 → score_durability (some t) (some g) = 7) ∧
    (t = Trend.stable → 1/5 < g → score_durability (some t) (some g) = 6) ∧
    (t = Trend.gaining → 1/10 ≤ g → g < 3/20 → score_durability (some t) (some g) = 5) ∧
    (t = Trend.gaining → 0 ≤ g → g < 1/10 → score_durability (some t) (some g) = 4) ∧
    (t = Trend.stable → 1/10 ≤ g → g ≤ 1/5 → score_durability (some t) (some g) = 4) ∧
    (t = Trend.stable → 0 ≤ g → g < 1/10 → score_durability (some t) (some g) = 0) := by
  refine ⟨rfl, ?_, rfl, ?_, ?_, ?_, ?_, ?_, ?_, ?_, ?_⟩
  · cases t <;> rfl
  · intro hc
    simp only [score_durability, if_pos hc]
  · intro ht h1
    subst ht
    have hne : ¬ (Trend.gaining = Trend.losing ∨ g < 0) := by
      rintro (hl | hneg)
      · exact absurd hl (by decide)
      · linarith
    simp only [score_durability, if_neg hne, if_pos rfl, if_pos h1, if_true]
  · intro ht h1 h2
    subst ht
    have hne : ¬ (Trend.gaining = Trend.losing ∨ g < 0) := by
      rintro (hl | hneg)
      · exact absurd hl (by decide)
      · linarith
    simp only [score_durability, if_neg hne, if_pos rfl,
      if_neg (not_lt.mpr h2), if_pos h1, if_true]
  · intro ht h1
    subst ht
    have hne : ¬ (Trend.stable = Trend.losing ∨ g < 0) := by
      rintro (hl | hneg)
      · exact absurd hl (by decide)
      · linarith
    have hng : ¬ (Trend.stable = Trend.gaining) := by decide
    simp only [score_durability, if_neg hne, if_neg hng, if_pos h1]
  · intro ht h1 h2
    subst ht
    have hne : ¬ (Trend.gaining = Trend.losing ∨ g < 0) := by
      rintro (hl | hneg)
      · exact absurd hl (by decide)
      · linarith
    simp only [score_durability, if_neg hne, if_pos rfl,
      if_neg (not_lt.mpr (le_of_lt (by linarith : g < 1/5))),
      if_neg (not_le.mpr h2), if_pos h1, if_true]
  · intro ht h1 h2
    subst ht
    have hne : ¬ (Trend.gaining = Trend.losing ∨ g < 0) := by
      rintro (hl | hneg)
      · exact absurd hl (by decide)
      · linarith
    simp only [score_durability, if_neg hne, if_pos rfl,
      if_neg (not_lt.mpr (le_of_lt (by linarith : g < 1/5))),
      if_neg (not_le.mpr (by linarith : g < 3/20)),
      if_neg (not_le.mpr h2), if_true]
  · intro ht h1 h2
    subst ht
    have hne : ¬ (Trend.stable = Trend.losing ∨ g < 0) := by
      rintro (hl | hneg)
      · exact absurd hl (by decide)
      · linarith
    have hng : ¬ (Trend.stable = Trend.gaining) := by decide
    simp only [score_durability, if_neg hne, if_neg hng,
      if_neg (not_lt.mpr h2), if_pos h1]
  · intro ht h1 h2
    subst ht
    have hne : ¬ (Trend.stable = Trend.losing ∨ g < 0) := by
      rintro (hl | hneg)
      · exact absurd hl (by decide)
      · linarith
    have hng : ¬ (Trend.stable = Trend.gaining) := by decide
    simp only [score_durability, if_neg hne, if_neg hng,
      if_neg (not_lt.mpr (le_of_lt (by linarith : g < 1/5))),
      if_neg (not_le.mpr h2)]

/-- C9: for every ROE and buyback-quality input the capital-allocation
pillar never returns 4 (the final else branch of the source is
unreachable) and its output always lies in the set 0, 5, 6, 7, 8. -/
theorem score_capital_allocation_range (roe : Option ℚ) (bq : String) :
    score_capital_allocation roe bq ≠ 4 ∧
    (score_capital_allocation roe bq = 0 ∨ score_capital_allocation roe bq = 5 ∨
     score_capital_allocation roe bq = 6 ∨ score_capital_allocation roe bq = 7 ∨
     score_capital_allocation roe bq = 8) := by
  cases roe with
  | none =>
    constructor
    · intro h0
      exact absurd h0 (by norm_num [score_capital_allocation])
    · exact Or.inl rfl
  | some r =>
    simp only [score_capital_allocation]
    split_ifs with h1 h2 h3 h4 h5 <;>
      first
        | exact absurd ⟨le_of_not_lt h1, le_of_not_lt h4⟩ h5
        | exact ⟨by norm_num, by norm_num⟩

end StockTracker

/-! ### Score aggregator (src/backend/scoring_8x8.py, calculate_total_score) -/

/-- The eight pillar scores, one integer field per pillar, in the
insertion order of the scores dictionary the source builds. -/
structure PillarScores where
  moat : ℤ
  fortress : ℤ
  engine : ℤ
  efficiency : ℤ
  pricing_power : ℤ
  capital_allocation : ℤ
  cash_generation : ℤ
  durability : ℤ

/-- The scores dictionary as the ordered list of its items, matching
the insertion order of the dict literal in calculate_total_score. -/
def pillarList (s : PillarScores) : List (String × ℤ) :=
  [("moat", s.moat), ("fortress", s.fortress), ("engine", s.engine),
   ("efficiency", s.efficiency), ("pricing_power", s.pricing_power),
   ("capital_allocation", s.capital_allocation),
   ("cash_generation", s.cash_generation), ("durability", s.durability)]

/-- The pillar names scoring exactly 0, in dictionary order: the list
comprehension building elimination_reasons in calculate_total_score. -/
def zeroPillars (s : PillarScores) : List String :=
  ((pillarList s).filter (fun kv => kv.2 == 0)).map Prod.fst

/-- The plain sum of the eight pillar scores. -/
def pillarSum (s : PillarScores) : ℤ :=
  ((pillarList s).map Prod.snd).sum

/-- Embeds the aggregation tail of
EightByEightScorer.calculate_total_score (scoring_8x8.py lines
199-211): elimination reasons, elimination flag, total (zeroed when a
pillar eliminates), and the second below-32 gate.  Returns
(total_score, is_eliminated, elimination_reasons). -/
def aggregate (s : PillarScores) : ℤ × Bool × List String :=
  let elimination_reasons := zeroPillars s
  let is_eliminated : Bool := decide (0 < elimination_reasons.length)
  let total_score : ℤ := if is_eliminated then 0 else pillarSum s
  if total_score < 32 ∧ is_eliminated = false then
    (total_score, true, ["below_minimum_score"])
  else
    (total_score, is_eliminated, elimination_reasons)

/-- C3: for every set of eight pillar scores, the aggregator returns
reasons equal to exactly the pillars scoring 0 (except when only the
below-32 gate fires, where reasons is exactly below_minimum_score and
the total is not reset to 0); the total equals the sum when no pillar
is 0 and 0 otherwise; and the elimination flag is set exactly when some
pillar is 0 or the returned total is below 32. -/
theorem aggregate_spec (s : PillarScores) :
    (zeroPillars s ≠ [] → aggregate s = (0, true, zeroPillars s)) ∧
    (zeroPillars s = [] → pillarSum s < 32 →
      aggregate s = (pillarSum s, true, ["below_minimum_score"])) ∧
    (zeroPillars s = [] → 32 ≤ pillarSum s →
      aggregate s = (pillarSum s, false, [])) ∧
    ((aggregate s).2.1 = true ↔ zeroPillars s ≠ [] ∨ (aggregate s).1 < 32) := by
  by_cases hz : zeroPillars s = []
  · by_cases hs : pillarSum s < 32
    · have hagg : aggregate s = (pillarSum s, true, ["below_minimum_score"]) := by
        unfold aggregate
        rw [hz]
        simp [hs]
      refine ⟨fun h => absurd hz h, fun _ _ => hagg,
        fun _ h32 => absurd hs (not_lt.mpr h32), ?_⟩
      rw [hagg]
      simp [hs]
    · have hagg : aggregate s = (pillarSum s, false, []) := by
        unfold aggregate
        rw [hz]
        simp [hs]
      refine ⟨fun h => absurd hz h, fun _ h => absurd h hs,
        fun _ _ => hagg, ?_⟩
      rw [hagg]
      simp [hz, hs]
  · have hd : decide (0 < (zeroPillars s).length) = true := by
      simp [List.length_pos.mpr hz]
    have hagg : aggregate s = (0, true, zeroPillars s) := by
      unfold aggregate
      simp [hd]
    refine ⟨fun _ => hagg, fun h => absurd h hz, fun h => absurd h hz, ?_⟩
    rw [hagg]
    simp [hz]

/-! ### Pillar allocator (src/backend/optimizer_8x8.py) -/

/-- A scored security as select_top_8 and calculate_weights consume it:
the dictionary fields those functions read. -/
structure ScoredStock where
  ticker : String
  is_eliminated : Bool
  total_score : ℤ
  lowest_pillar_score : ℤ
  median_pillar_score : ℚ
  p_fcf : ℚ
  fcf_absolute : ℚ
deriving DecidableEq

/-- The five-component sort key of select_top_8 (optimizer_8x8.py lines
37-43), as a lexicographic tuple: total score, lowest pillar score,
median pillar score, negated price-to-FCF, absolute FCF. -/
def stockKey (s : ScoredStock) : Lex (ℤ × Lex (ℤ × Lex (ℚ × Lex (ℚ × ℚ)))) :=
  toLex (s.total_score, toLex (s.lowest_pillar_score, toLex (s.median_pillar_score,
    toLex (-s.p_fcf, s.fcf_absolute))))

/-- Stock a sorts at or before stock b in the descending sort of
select_top_8 exactly when the key of b is at most the key of a. -/
def stockGE (a b : ScoredStock) : Prop :=
  stockKey b ≤ stockKey a

instance : DecidableRel stockGE :=
  fun a b => inferInstanceAs (Decidable (stockKey b ≤ stockKey a))

instance : IsTotal ScoredStock stockGE :=
  ⟨fun a b => le_total (stockKey b) (stockKey a)⟩

instance : IsTrans ScoredStock stockGE :=
  ⟨fun _ _ _ hab hbc => le_trans hbc hab⟩

/-- The two qualification filters of select_top_8 (optimizer_8x8.py
lines 26-30): drop eliminated stocks, then drop totals below 32. -/
def qualifiedStocks (scored_stocks : List ScoredStock) : List ScoredStock :=
  (scored_stocks.filter (fun s => !s.is_eliminated)).filter
    (fun s => decide (32 ≤ s.total_score))

/-- Embeds EightByEightOptimizer.select_top_8 (optimizer_8x8.py lines
15-51): filter, stable descending sort by the five-key tuple, take 8.
Returning fewer than 8 stocks is an ordinary result, not an error. -/
def select_top_8 (scored_stocks : List ScoredStock) : List ScoredStock :=
  if qualifiedStocks scored_stocks = [] then []
  else (List.insertionSort stockGE (qualifiedStocks scored_stocks)).take 8

/-- C5: select_top_8 returns at most 8 stocks; every returned stock
comes from the input, is non-eliminated and has total score at least
32; the result is sorted by the descending five-key order; and that
order is exactly the documented tie-break chain (higher total, then
higher lowest pillar, then higher median pillar, then lower
price-to-FCF, then higher absolute FCF). -/
theorem select_top_8_spec (l : List ScoredStock) :
    (select_top_8 l).length ≤ 8 ∧
    (∀ s ∈ select_top_8 l, s ∈ l ∧ s.is_eliminated = false ∧ 32 ≤ s.total_score) ∧
    List.Sorted stockGE (select_top_8 l) ∧
    (∀ a b : ScoredStock, stockGE a b ↔
      b.total_score < a.total_score ∨ b.total_score = a.total_score ∧
        (b.lowest_pillar_score < a.lowest_pillar_score ∨
          b.lowest_pillar_score = a.lowest_pillar_score ∧
          (b.median_pillar_score < a.median_pillar_score ∨
            b.median_pillar_score = a.median_pillar_score ∧
            (a.p_fcf < b.p_fcf ∨ b.p_fcf = a.p_fcf ∧
              b.fcf_absolute ≤ a.fcf_absolute)))) := by
  refine ⟨?_, ?_, ?_, ?_⟩
  · unfold select_top_8
    split
    · simp
    · exact List.length_take_le 8 _
  · intro s hs
    unfold select_top_8 at hs
    split at hs
    · simp at hs
    · have hmem : s ∈ qualifiedStocks l :=
        (List.mem_insertionSort stockGE).mp (List.mem_of_mem_take hs)
      unfold qualifiedStocks at hmem
      simp only [List.mem_filter, decide_eq_true_eq, Bool.not_eq_true'] at hmem
      exact ⟨hmem.1.1, hmem.1.2, hmem.2⟩
  · unfold select_top_8
    split
    · exact List.sorted_nil
    · exact List.Pairwise.sublist (List.take_sublist 8 _)
        (List.sorted_insertionSort stockGE _)
  · intro a b
    simp [stockGE, stockKey, Prod.Lex.le_iff]

/-- The per-stock surplus points of calculate_weights (optimizer_8x8.py
line 77): score minus the base of 30, floored at 1. -/
def pointsAboveBase (s : ScoredStock) : ℤ :=
  max (s.total_score - 30) 1

/-- The summed surplus points of calculate_weights (optimizer_8x8.py
line 81). -/
def totalPoints (selected_stocks : List ScoredStock) : ℤ :=
  (selected_stocks.map pointsAboveBase).sum

/-- One Python dictionary assignment weights[k] = v on an association
list: overwrite in place when the key exists, append otherwise. -/
def dictInsert (k : String) (v : ℚ) : List (String × ℚ) → List (String × ℚ)
  | [] => [(k, v)]
  | kv :: rest => if kv.1 = k then (k, v) :: rest else kv :: dictInsert k v rest

/-- The weights dictionary built by the assignment loops of
calculate_weights, in iteration order. -/
def buildDict (entries : List (String × ℚ)) : List (String × ℚ) :=
  entries.foldl (fun w e => dictInsert e.1 e.2 w) []

/-- Embeds EightByEightOptimizer.calculate_weights (optimizer_8x8.py
lines 53-103): surplus-proportional weights with an equal-weight
fallback when the summed points are zero, then a renormalization pass
when the weight sum is off 1 by more than 1e-3. -/
def calculate_weights (selected_stocks : List ScoredStock) : List (String × ℚ) :=
  if selected_stocks = [] then []
  else
    let weights : List (String × ℚ) :=
      if totalPoints selected_stocks = 0 then
        buildDict (selected_stocks.map
          (fun s => (s.ticker, 1 / (selected_stocks.length : ℚ))))
      else
        buildDict (selected_stocks.map
          (fun s => (s.ticker,
            (pointsAboveBase s : ℚ) / (totalPoints selected_stocks : ℚ))))
    let weight_sum : ℚ := (weights.map Prod.snd).sum
    if 1/1000 < |weight_sum - 1| then
      weights.map (fun kv => (kv.1, kv.2 / weight_sum))
    else weights

theorem dictInsert_append (k : String) (v : ℚ) (w : List (String × ℚ))
    (hk : k ∉ w.map Prod.fst) : dictInsert k v w = w ++ [(k, v)] := by
  induction w with
  | nil => rfl
  | cons kv rest ih =>
    simp only [List.map_cons, List.mem_cons, not_or] at hk
    have hne : kv.1 ≠ k := fun h => hk.1 h.symm
    simp only [dictInsert, if_neg hne]
    rw [ih hk.2, List.cons_append]

theorem buildDict_go (entries acc : List (String × ℚ))
    (h : (acc.map Prod.fst ++ entries.map Prod.fst).Nodup) :
    entries.foldl (fun w e => dictInsert e.1 e.2 w) acc = acc ++ entries := by
  induction entries generalizing acc with
  | nil => simp
  | cons e rest ih =>
    have hk : e.1 ∉ acc.map Prod.fst := by
      intro hmem
      exact (List.nodup_append.mp h).2.2 hmem (by simp)
    rw [List.foldl_cons, dictInsert_append e.1 e.2 acc hk]
    have hnodup : ((acc ++ [e]).map Prod.fst ++ rest.map Prod.fst).Nodup := by
      simpa [List.append_assoc] using h
    simpa [List.append_assoc] using ih (acc ++ [e]) hnodup

theorem buildDict_eq (entries : List (String × ℚ))
    (h : (entries.map Prod.fst).Nodup) : buildDict entries = entries := by
  have hgo := buildDict_go entries [] (by simpa using h)
  simpa using hgo

theorem le_totalPoints (l : List ScoredStock) :
    (l.length : ℤ) ≤ totalPoints l := by
  induction l with
  | nil => simp [totalPoints]
  | cons s t ih =>
    have h1 : (1:ℤ) ≤ pointsAboveBase s := le_max_right _ _
    simp only [totalPoints, List.map_cons, List.sum_cons, List.length_cons] at *
    push_cast
    linarith

theorem map_div_sum (l : List ScoredStock) (c : ℚ) :
    (l.map (fun s => (pointsAboveBase s : ℚ) / c)).sum
      = (l.map (fun s => (pointsAboveBase s : ℚ))).sum / c := by
  induction l with
  | nil => simp
  | cons s t ih => simp [ih, add_div]

theorem cast_totalPoints (l : List ScoredStock) :
    (l.map (fun s => (pointsAboveBase s : ℚ))).sum = (totalPoints l : ℚ) := by
  induction l with
  | nil => simp [totalPoints]
  | cons s t ih =>
    simp only [totalPoints, List.map_cons, List.sum_cons]
    push_cast
    rw [ih]
    simp [totalPoints]

/-- C4: on a non-empty selection with pairwise distinct tickers,
calculate_weights pairs every security with the weight
max(total - 30, 1) / (summed points), the returned weights sum to
exactly 1 (hence within the 1e-3 tolerance), and every returned weight
is strictly positive. -/
theorem calculate_weights_spec (l : List ScoredStock) (hne : l ≠ [])
    (hnd : (l.map ScoredStock.ticker).Nodup) :
    calculate_weights l
      = l.map (fun s => (s.ticker, (pointsAboveBase s : ℚ) / (totalPoints l : ℚ))) ∧
    ((calculate_weights l).map Prod.snd).sum = 1 ∧
    ∀ kv ∈ calculate_weights l, 0 < kv.2 := by
  have hlen : 0 < l.length := List.length_pos.mpr hne
  have hTi : (0:ℤ) < totalPoints l :=
    lt_of_lt_of_le (by exact_mod_cast hlen) (le_totalPoints l)
  have hT0 : ¬ totalPoints l = 0 := ne_of_gt hTi
  have hTQ : (0:ℚ) < ((totalPoints l : ℤ) : ℚ) := by exact_mod_cast hTi
  set entries := l.map
      (fun s => (s.ticker, (pointsAboveBase s : ℚ) / (totalPoints l : ℚ)))
    with hent
  have hkeys : entries.map Prod.fst = l.map ScoredStock.ticker := by
    simp [hent, List.map_map, Function.comp]
  have hbd : buildDict entries = entries :=
    buildDict_eq entries (by rw [hkeys]; exact hnd)
  have hsum : (entries.map Prod.snd).sum = 1 := by
    rw [hent, List.map_map]
    have hcomp : (Prod.snd ∘ fun s : ScoredStock =>
        (s.ticker, (pointsAboveBase s : ℚ) / (totalPoints l : ℚ)))
        = fun s : ScoredStock => (pointsAboveBase s : ℚ) / (totalPoints l : ℚ) := rfl
    rw [hcomp, map_div_sum, cast_totalPoints, div_self (ne_of_gt hTQ)]
  have hcw : calculate_weights l = entries := by
    unfold calculate_weights
    rw [if_neg hne]
    simp only [← hent, if_neg hT0, hbd, hsum]
    norm_num
  refine ⟨hcw, by rw [hcw]; exact hsum, ?_⟩
  intro kv hkv
  rw [hcw, hent] at hkv
  obtain ⟨s, hsmem, rfl⟩ := List.mem_map.mp hkv
  have h1 : (1:ℤ) ≤ pointsAboveBase s := le_max_right _ _
  have hp : (0:ℚ) < (pointsAboveBase s : ℚ) := by
    exact_mod_cast lt_of_lt_of_le Int.zero_lt_one h1
  exact div_pos hp hTQ

/-- Sample stock used to instantiate the hypotheses of the
calculate_weights and totalPoints theorems at a concrete input. -/
def stockA : ScoredStock :=
  { ticker := "A", is_eliminated := false, total_score := 40,
    lowest_pillar_score := 4, median_pillar_score := 5, p_fcf := 20,
    fcf_absolute := 100 }

/-- Second sample stock for the concrete witness portfolio. -/
def stockB : ScoredStock :=
  { ticker := "B", is_eliminated := false, total_score := 36,
    lowest_pillar_score := 4, median_pillar_score := 5, p_fcf := 25,
    fcf_absolute := 50 }

/-- C4 witness: the weights computed for the concrete two-stock
selection [stockA, stockB] sum to exactly 1. -/
theorem calculate_weights_spec_witness :
    ((calculate_weights [stockA, stockB]).map Prod.snd).sum = 1 :=
  (calculate_weights_spec [stockA, stockB] (List.cons_ne_nil _ _)
    (by simp [stockA, stockB])).2.1

/-- C10: on any non-empty selection the summed surplus points are at
least the number of selected securities and in particular non-zero, so
the equal-weight fallback branch of calculate_weights (guarded by
total_points == 0) can never run. -/
theorem totalPoints_pos (l : List ScoredStock) (hne : l ≠ []) :
    (l.length : ℤ) ≤ totalPoints l ∧ totalPoints l ≠ 0 := by
  have hlen : 0 < l.length := List.length_pos.mpr hne
  have hle := le_totalPoints l
  exact ⟨hle, ne_of_gt (lt_of_lt_of_le (by exact_mod_cast hlen) hle)⟩

/-- C10 witness: the surplus-point bound evaluated on the concrete
one-stock selection [stockA]. -/
theorem totalPoints_pos_witness :
    (([stockA] : List ScoredStock).length : ℤ) ≤ totalPoints [stockA] ∧
    totalPoints [stockA] ≠ 0 :=
  totalPoints_pos [stockA] (List.cons_ne_nil _ _)

/-- A portfolio position as validate_portfolio reads it: weight, total
score and the pillar-score mapping (as ordered items). -/
structure Position where
  ticker : String
  weight : ℚ
  total_score : ℤ
  pillar_scores : List (String × ℤ)

/-- The issues validate_portfolio can append, one constructor per
f-string the source emits. -/
inductive Issue where
  | size_too_few : ℕ → Issue
  | size_too_many : ℕ → Issue
  | weight_sum : ℚ → Issue
  | score_below : String → ℤ → Issue
  | zero_pillar : String → String → Issue
deriving DecidableEq

/-- Embeds EightByEightOptimizer.validate_portfolio (optimizer_8x8.py
lines 155-194): the four checks append their issues in source order and
the validity flag is emptiness of the issue list.  The function is
total: violations are reported in the list, never raised. -/
def validate_portfolio (ps : List Position) : Bool × List Issue :=
  let size_issues : List Issue :=
    if ps.length ≠ 8 then
      if ps.length < 8 then [Issue.size_too_few ps.length]
      else [Issue.size_too_many ps.length]
    else []
  let total_weight : ℚ := (ps.map Position.weight).sum
  let weight_issues : List Issue :=
    if 1/1000 < |total_weight - 1| then [Issue.weight_sum total_weight] else []
  let score_issues : List Issue :=
    (ps.filter (fun p => decide (p.total_score < 32))).map
      (fun p => Issue.score_below p.ticker p.total_score)
  let pillar_issues : List Issue :=
    (ps.map (fun p => (p.pillar_scores.filter (fun kv => kv.2 == 0)).map
      (fun kv => Issue.zero_pillar p.ticker kv.1))).flatten
  let issues := size_issues ++ weight_issues ++ score_issues ++ pillar_issues
  (issues.isEmpty, issues)

/-- C8: validate_portfolio always returns a flag and an issue list (it
is a total function, so it never raises); the flag is true exactly when
the list is empty; and the list is empty exactly when the portfolio has
size 8, the weights sum to 1 within 1e-3, every total score is at least
32 and no pillar score is 0 - so an issue is produced exactly when one
of those invariants fails. -/
theorem validate_portfolio_spec (ps : List Position) :
    (( validate_portfolio ps).1 = true ↔ ( validate_portfolio ps).2 = []) ∧
    (( validate_portfolio ps).2 = [] ↔
      (ps.length = 8 ∧
       |(ps.map Position.weight).sum - 1| ≤ 1/1000 ∧
       (∀ p ∈ ps, 32 ≤ p.total_score) ∧
       (∀ p ∈ ps, ∀ kv ∈ p.pillar_scores, kv.2 ≠ 0))) := by
  constructor
  · simp [ validate_portfolio, List.isEmpty_iff]
  · simp only [ validate_portfolio ]
    simp [List.append_eq_nil, List.filter_eq_nil_iff, List.flatten_eq_nil_iff,
      not_lt, and_assoc]
    intro _ _ _
    constructor
    · intro h
      by_contra h8
      have hx := h h8
      split_ifs at hx <;> exact absurd hx (List.cons_ne_nil _ _)
    · intro h8 hne
      exact absurd h8 hne

/-! ### Metric normalizer (src/backend/scoring.py, _normalize_score) -/

/-- Embeds ScoringEngine._normalize_score (scoring.py lines 78-87):
clamp-then-interpolate.  The interpolation branch runs only when
min_val < value < max_val, so the denominator there is never zero and
the Python function never raises. -/
def normalize_score (value min_val max_val min_score max_score : ℚ) : ℚ :=
  if value ≤ min_val then min_score
  else if max_val ≤ value then max_score
  else min_score + (value - min_val) / (max_val - min_val) * (max_score - min_score)

/-- C7 as frozen, formalised: with domain_min ≤ domain_max and
range_min ≤ range_max the normalizer is monotone in the value, values
at or below domain_min give exactly range_min, and values at or above
domain_max give exactly range_max. -/
def claimC7 : Prop :=
  ∀ dmin dmax rmin rmax : ℚ, dmin ≤ dmax → rmin ≤ rmax →
    (∀ v w : ℚ, v ≤ w →
      normalize_score v dmin dmax rmin rmax ≤ normalize_score w dmin dmax rmin rmax) ∧
    (∀ v : ℚ, v ≤ dmin → normalize_score v dmin dmax rmin rmax = rmin) ∧
    (∀ v : ℚ, dmax ≤ v → normalize_score v dmin dmax rmin rmax = rmax)

/-- C7 counterexample: with the degenerate bounds domain_min =
domain_max = 0 and ranges 0 to 1, the value 0 sits at or above
domain_max yet the source returns range_min = 0, not range_max = 1:
the first clamp branch wins the tie. -/
theorem normalize_score_claim_false : ¬ claimC7 := by
  intro h
  have hmax := (h 0 0 0 1 le_rfl (by norm_num)).2.2 0 le_rfl
  have h0 : normalize_score 0 0 0 0 1 = 0 := by norm_num [normalize_score]
  rw [h0] at hmax
  exact absurd hmax (by norm_num)

theorem normalize_score_ge_rmin (dmin dmax rmin rmax v : ℚ)
    (_hd : dmin ≤ dmax) (hr : rmin ≤ rmax) :
    rmin ≤ normalize_score v dmin dmax rmin rmax := by
  unfold normalize_score
  split_ifs with h1 h2
  · exact le_rfl
  · exact hr
  · have hlo : dmin < v := lt_of_not_le h1
    have hhi : v < dmax := lt_of_not_le h2
    have hden : 0 < dmax - dmin := by linarith
    have hq : 0 ≤ (v - dmin) / (dmax - dmin) :=
      div_nonneg (by linarith) (le_of_lt hden)
    nlinarith

theorem normalize_score_le_rmax (dmin dmax rmin rmax v : ℚ)
    (_hd : dmin ≤ dmax) (hr : rmin ≤ rmax) :
    normalize_score v dmin dmax rmin rmax ≤ rmax := by
  unfold normalize_score
  split_ifs with h1 h2
  · exact hr
  · exact le_rfl
  · have hlo : dmin < v := lt_of_not_le h1
    have hhi : v < dmax := lt_of_not_le h2
    have hden : 0 < dmax - dmin := by linarith
    have hq : (v - dmin) / (dmax - dmin) ≤ 1 :=
      (div_le_one hden).mpr (by linarith)
    have hq0 : 0 ≤ (v - dmin) / (dmax - dmin) :=
      div_nonneg (by linarith) (le_of_lt hden)
    nlinarith

/-- C7 amended: with domain_min ≤ domain_max and range_min ≤ range_max
the normalizer is monotone non-decreasing in the value and returns
range_min exactly on values at or below domain_min; values at or above
domain_max return range_max exactly provided domain_min < domain_max
(for collapsed bounds domain_min = domain_max the value equal to the
common bound falls into the first clamp branch and returns range_min
instead).  The function is total, so it never fails. -/
theorem normalize_score_spec (dmin dmax rmin rmax : ℚ)
    (hd : dmin ≤ dmax) (hr : rmin ≤ rmax) :
    (∀ v w : ℚ, v ≤ w →
      normalize_score v dmin dmax rmin rmax ≤ normalize_score w dmin dmax rmin rmax) ∧
    (∀ v : ℚ, v ≤ dmin → normalize_score v dmin dmax rmin rmax = rmin) ∧
    (∀ v : ℚ, dmin < dmax → dmax ≤ v → normalize_score v dmin dmax rmin rmax = rmax) := by
  refine ⟨?_, ?_, ?_⟩
  · intro v w hvw
    rcases le_or_lt v dmin with hv1 | hv1
    · rw [normalize_score, if_pos hv1]
      exact normalize_score_ge_rmin dmin dmax rmin rmax w hd hr
    · rcases le_or_lt dmax v with hv2 | hv2
      · rw [normalize_score, if_neg (not_le.mpr hv1), if_pos hv2]
        have hw1 : ¬ w ≤ dmin := by linarith
        have hw2 : dmax ≤ w := le_trans hv2 hvw
        rw [normalize_score, if_neg hw1, if_pos hw2]
      · rw [normalize_score, if_neg (not_le.mpr hv1), if_neg (not_le.mpr hv2)]
        have hden : 0 < dmax - dmin := by linarith
        rcases le_or_lt dmax w with hw2 | hw2
        · have hw1 : ¬ w ≤ dmin := by linarith
          rw [normalize_score, if_neg hw1, if_pos hw2]
          have hle := normalize_score_le_rmax dmin dmax rmin rmax v hd hr
          rw [normalize_score, if_neg (not_le.mpr hv1), if_neg (not_le.mpr hv2)] at hle
          exact hle
        · have hw1 : ¬ w ≤ dmin := by linarith
          rw [normalize_score, if_neg hw1, if_neg (not_le.mpr hw2)]
          have hdiv : (v - dmin) / (dmax - dmin) ≤ (w - dmin) / (dmax - dmin) :=
            (div_le_div_iff_of_pos_right hden).mpr (by linarith)
          have hmul := mul_le_mul_of_nonneg_right hdiv (by linarith : (0:ℚ) ≤ rmax - rmin)
          linarith
  · intro v hv
    rw [normalize_score, if_pos hv]
  · intro v hlt hv
    have hv1 : ¬ v ≤ dmin := by linarith
    rw [normalize_score, if_neg hv1, if_pos hv]

/-- C7 witness: the amended saturation and monotonicity facts at the
concrete bounds [0, 1] mapped to [0, 10]. -/
theorem normalize_score_spec_witness :
    normalize_score 2 0 1 0 10 = 10 ∧
    normalize_score (1/2) 0 1 0 10 ≤ normalize_score (3/4) 0 1 0 10 ∧
    normalize_score (-1) 0 1 0 10 = 0 := by
  have h := normalize_score_spec 0 1 0 10 (by norm_num) (by norm_num)
  exact ⟨h.2.2 2 (by norm_num) (by norm_num),
    h.1 (1/2) (3/4) (by norm_num),
    h.2.1 (-1) (by norm_num)⟩

/-! ### Continuous allocator (src/backend/optimizer.py, optimize_weights) -/

/-- Embeds PortfolioOptimizer.optimize_weights (optimizer.py lines
9-72) over the rationals: min-score filter, raw weight
score^alpha / (volatility * 10000) with the volatility floor, cap at
max_position_size, normalization, then one clamp-and-renormalize pass.
The configured exponent alpha is a natural number here; the source
default alpha = 2.0 is integral, so score ** alpha coincides with the
natural power used below. -/
def optimize_weights (max_position_size : ℚ) (alpha : ℕ)
    (scores volatilities : List (String × ℚ)) (min_score : ℚ) : List (String × ℚ) :=
  let filtered_stocks := scores.filter (fun kv => decide (min_score ≤ kv.2))
  if filtered_stocks = [] then []
  else
    let raw_weights := filtered_stocks.map (fun kv =>
      let vol0 := (volatilities.lookup kv.1).getD (1/4)
      let vol := if vol0 < 1/100 then 1/4 else vol0
      (kv.1, kv.2 ^ alpha / (vol * 10000)))
    let capped_weights := raw_weights.map (fun kv => (kv.1, min kv.2 max_position_size))
    let total_weight := (capped_weights.map Prod.snd).sum
    if 0 < total_weight then
      let normalized_weights := capped_weights.map (fun kv => (kv.1, kv.2 / total_weight))
      let needs_renormalization :=
        normalized_weights.any (fun kv => decide (max_position_size < kv.2))
      let final_weights := normalized_weights.map
        (fun kv => (kv.1, if max_position_size < kv.2 then max_position_size else kv.2))
      if needs_renormalization then
        final_weights.map (fun kv => (kv.1, kv.2 / (final_weights.map Prod.snd).sum))
      else final_weights
    else []

/-- The scores dictionary of the C1 scenario. -/
def c1scores : List (String × ℚ) := [("A", 80), ("B", 60)]

/-- The volatilities dictionary of the C1 scenario. -/
def c1vols : List (String × ℚ) := [("A", 1/5), ("B", 2/5)]

/-- C1 as frozen, formalised: in the documented scenario (scores 80 and
60, volatilities 0.2 and 0.4, min_score 50, alpha 2, cap 0.05) the
returned weights sum to 1 and ticker A gets a strictly larger weight
than ticker B. -/
def claimC1 : Prop :=
  ∃ wA wB : ℚ,
    (optimize_weights (1/20) 2 c1scores c1vols 50).lookup "A" = some wA ∧
    (optimize_weights (1/20) 2 c1scores c1vols 50).lookup "B" = some wB ∧
    wA + wB = 1 ∧ wB < wA

/-- C1 counterexample: in the documented scenario both raw weights
(3.2 and 0.9) exceed the 0.05 cap, so both tickers are capped to the
same weight and end at exactly 1/2 each after normalization - A does
not receive a strictly larger weight than B. -/
theorem optimize_weights_claim_false : ¬ claimC1 := by
  intro h
  obtain ⟨wA, wB, hA, hB, hsum, hlt⟩ := h
  have heval : optimize_weights (1/20) 2 c1scores c1vols 50
      = [("A", 1/2), ("B", 1/2)] := by
    have hAA : ("A" == "A") = true := by decide
    have hBA : ("B" == "A") = false := by decide
    have hBB : ("B" == "B") = true := by decide
    norm_num [optimize_weights, c1scores, c1vols, List.lookup, List.filter,
      hAA, hBA, hBB]
    intro hcon
    simp at hcon
  rw [heval] at hA hB
  have hAA : ("A" == "A") = true := by decide
  have hBA : ("B" == "A") = false := by decide
  have hBB : ("B" == "B") = true := by decide
  simp only [List.lookup, hAA, hBA, hBB, Option.some.injEq] at hA hB
  rw [← hA, ← hB] at hlt
  exact absurd hlt (by norm_num)

/-- C1 amended: in the documented scenario both tickers pass the
min-score filter but both raw weights (3.2 for A and 0.9 for B) exceed
the 0.05 position cap and are capped to it, so the final weights are
equal at exactly 1/2 each and sum to 1; A does not end strictly above
B. -/
theorem optimize_weights_scenario_eval :
    optimize_weights (1/20) 2 c1scores c1vols 50 = [("A", 1/2), ("B", 1/2)] ∧
    min ((80:ℚ) ^ 2 / ((1/5) * 10000)) (1/20) = 1/20 ∧
    min ((60:ℚ) ^ 2 / ((2/5) * 10000)) (1/20) = 1/20 ∧
    (1:ℚ)/2 + 1/2 = 1 := by
  refine ⟨?_, by norm_num, by norm_num, by norm_num⟩
  have hAA : ("A" == "A") = true := by decide
  have hBA : ("B" == "A") = false := by decide
  have hBB : ("B" == "B") = true := by decide
  norm_num [optimize_weights, c1scores, c1vols, List.lookup, List.filter,
    hAA, hBA, hBB]
  intro hcon
  simp at hcon
